import Mathlib

/-
Shallow embedding of ipydebug (src/ipydebug/core.py).

The module holds two process-wide registries and one class:
  active_breakpoints : list of active tag strings (module global)
  func_breakpoints   : dict mapping names to Breakpoint objects (module global)
  Breakpoint         : the breakpoint state machine, with break_here as the
                       decision-and-suspend operation.

State is passed explicitly: operations take the registry values they read and
return the updated values.  The interactive console (IPython.embed) and the
caller frame captured via inspect.stack are external effects; they are
modelled by an availability flag and an explicit local-variable mapping, and
the results record (log output, warning flag, triggered flag, outcome) mirrors
the observable effects of one break_here call.
-/

/-- Captured local variables: a name-to-rendered-value mapping, as the mapping
handed to the log callable and exposed in the console session. -/
def LocalVars : Type := List (String × String)

/-- The log attribute of a Breakpoint: None, a literal string, or a function
from the captured local variables to a string (core.py lines 157-163 dispatch
on this with inspect.isfunction). -/
inductive LogDirective where
  | noneD : LogDirective
  | strD (s : String) : LogDirective
  | fnD (f : LocalVars → String) : LogDirective

/-- The activate_tags constructor argument: Python allows a bool or a list,
and branches on truthiness (an empty list is falsy). -/
inductive ActivateTags where
  | bool (b : Bool) : ActivateTags
  | list (l : List String) : ActivateTags

/-- Truthiness of the activate_tags argument as Python evaluates
`if activate_tags:` - a bool is itself, a list is truthy iff nonempty. -/
def ActivateTags.truthy : ActivateTags → Bool
  | ActivateTags.bool b => b
  | ActivateTags.list l => !l.isEmpty

/-- The Breakpoint object state (core.py lines 131-137): breaks is the usage
counter (starts at 0), active is the always-active flag, max_usage is the
quota with None as the unlimited sentinel, exit requests process termination
after every call, log is the logging directive. -/
structure Breakpoint where
  breaks : Nat
  tags : List String
  active : Bool
  max_usage : Option Nat
  exit : Bool
  log : LogDirective

/-- activate_breakpoint(tags) (core.py lines 8-23): extends the module-level
active_breakpoints list with the given tags and returns the list.  Modelled
as a function from the current registry value to the new one; the return
value of the Python function is exactly this new list. -/
def activate_breakpoint (active_breakpoints : List String) (tags : List String) :
    List String :=
  active_breakpoints ++ tags

/-- Breakpoint.__init__ (core.py lines 92-137).  Side effect: when
activate_tags is truthy, a bool activates self.tags while a (nonempty) list
activates that list instead.  Returns the new object paired with the updated
active_breakpoints registry. -/
def Breakpoint.init (tags : List String) (activate_tags : ActivateTags)
    (activate : Bool) (max_usage : Option Nat) (exit : Bool)
    (log : LogDirective) (active_breakpoints : List String) :
    Breakpoint × List String :=
  let active2 :=
    if activate_tags.truthy then
      match activate_tags with
      | ActivateTags.bool _ => activate_breakpoint active_breakpoints tags
      | ActivateTags.list l => activate_breakpoint active_breakpoints l
    else active_breakpoints
  ({ breaks := 0, tags := tags, active := activate, max_usage := max_usage,
     exit := exit, log := log }, active2)

/-- The trigger condition of break_here (core.py line 165):
self.active or force or any(tag in active_breakpoints for tag in self.tags). -/
def shouldTrigger (bp : Breakpoint) (force : Bool)
    (active_breakpoints : List String) : Bool :=
  bp.active || force || bp.tags.any (fun tag => decide (tag ∈ active_breakpoints))

/-- The quota condition of break_here (core.py line 166):
self.max_usage is None or self.breaks < self.max_usage. -/
def quotaOk (bp : Breakpoint) : Bool :=
  match bp.max_usage with
  | Option.none => true
  | some m => decide (bp.breaks < m)

/-- The debug-level log emission of break_here (core.py lines 157-163): with
log set, a callable is applied to the captured locals and the result logged,
a string is logged literally; nothing is logged when log is None. -/
def getLog : LogDirective → LocalVars → Option String
  | LogDirective.noneD, _ => Option.none
  | LogDirective.strD s, _ => some s
  | LogDirective.fnD f, lv => some (f lv)

/-- How one break_here call ends: ok (with whether sys.exit was invoked), or
the exception raised when IPython cannot be imported while the breakpoint
must fire (the DependencyMissing error of the design). -/
inductive FireOutcome where
  | ok (exited : Bool) : FireOutcome
  | dependencyMissing : FireOutcome
deriving DecidableEq

/-- The observable result of one break_here call: the updated Breakpoint
object, the debug-level log message (if any), whether the breakpoint
triggered (control handed to the console), whether the quota-expiry warning
was emitted, and the outcome. -/
structure FireResult where
  bp : Breakpoint
  logged : Option String
  triggered : Bool
  warned : Bool
  outcome : FireOutcome

/-- Breakpoint.break_here (core.py lines 139-178).  Order of effects in the
source: capture caller locals, emit the debug log, test the trigger and quota
condition; on success increment self.breaks, emit the expiry warning when
breaks equals max_usage, then import IPython and embed (raising when that
fails); finally, when self.exit or the exit argument holds, sys.exit.
The raise skips the sys.exit check; the increment precedes the import. -/
def Breakpoint.break_here (bp : Breakpoint) (active_breakpoints : List String)
    (local_vars : LocalVars) (ipython_available : Bool)
    (force : Bool) (exit_now : Bool) : FireResult :=
  if shouldTrigger bp force active_breakpoints && quotaOk bp then
    if ipython_available then
      { bp := { bp with breaks := bp.breaks + 1 },
        logged := getLog bp.log local_vars,
        triggered := true,
        warned := decide (some (bp.breaks + 1) = bp.max_usage),
        outcome := FireOutcome.ok (bp.exit || exit_now) }
    else
      { bp := { bp with breaks := bp.breaks + 1 },
        logged := getLog bp.log local_vars,
        triggered := true,
        warned := decide (some (bp.breaks + 1) = bp.max_usage),
        outcome := FireOutcome.dependencyMissing }
  else
    { bp := bp,
      logged := getLog bp.log local_vars,
      triggered := false,
      warned := false,
      outcome := FireOutcome.ok (bp.exit || exit_now) }

/-- The arguments a func_breakpoint wrapper stores to build its Breakpoint
(self.args and self.kwargs in core.py lines 48-61). -/
structure BpArgs where
  tags : List String
  activate_tags : ActivateTags
  activate : Bool
  max_usage : Option Nat
  exit : Bool
  log : LogDirective

/-- The Python defaults of Breakpoint.__init__: tags=[], activate_tags=True,
activate=False, max_usage=10, exit=False, log=None. -/
def default_bp_args : BpArgs :=
  { tags := [], activate_tags := ActivateTags.bool true, activate := false,
    max_usage := some 10, exit := false, log := LogDirective.noneD }

/-- The module-level func_breakpoints registry starts empty (core.py line 6). -/
def func_breakpoints_init : List (String × Breakpoint) := []

/-- Result of func_breakpoint.__call__: the Breakpoint bound to
self.breakpoint, the func_breakpoints registry after the call, the name given
to the returned wrapper, and the active_breakpoints registry after the call. -/
structure WrapResult where
  breakpoint : Breakpoint
  registry : List (String × Breakpoint)
  wrapper_name : String
  active_breakpoints : List String

/-- func_breakpoint.__call__ (core.py lines 62-82).  The source tests
inner.__name__ in func_breakpoints BEFORE the line that renames inner to
func.__name__, so the key looked up is the literal string "inner"; and
neither branch ever stores anything into func_breakpoints - the else branch
only constructs a fresh Breakpoint (with the registry side effect of
Breakpoint.__init__ on active_breakpoints).  The registry is returned
unchanged. -/
def func_breakpoint_call (args : BpArgs) (func_name : String)
    (registry : List (String × Breakpoint))
    (active_breakpoints : List String) : WrapResult :=
  let inner_name := "inner"
  match registry.lookup inner_name with
  | some bp =>
    { breakpoint := bp, registry := registry, wrapper_name := func_name,
      active_breakpoints := active_breakpoints }
  | Option.none =>
    let p := Breakpoint.init args.tags args.activate_tags args.activate
        args.max_usage args.exit args.log active_breakpoints
    { breakpoint := p.1, registry := registry, wrapper_name := func_name,
      active_breakpoints := p.2 }

/-- One call in a sequence of break_here invocations: the registry state and
frame seen by that call, console availability, and the two arguments. -/
structure FireCall where
  active_breakpoints : List String
  local_vars : LocalVars
  ipython_available : Bool
  force : Bool
  exit_now : Bool

/-- Iterate break_here over a list of calls, threading the Breakpoint object
state, collecting the per-call results. -/
def fireSeq : Breakpoint → List FireCall → List FireResult
  | _, [] => []
  | bp, c :: cs =>
    let r := bp.break_here c.active_breakpoints c.local_vars
        c.ipython_available c.force c.exit_now
    r :: fireSeq r.bp cs

/-
Helper lemmas characterizing one break_here call by its projections.
-/

/-- The triggered flag equals the conjunction of the trigger and quota tests. -/
theorem break_here_triggered (bp : Breakpoint) (A : List String) (lv : LocalVars)
    (ca f e : Bool) :
    (bp.break_here A lv ca f e).triggered = (shouldTrigger bp f A && quotaOk bp) := by
  cases hc : shouldTrigger bp f A && quotaOk bp <;>
    cases ca <;> simp [Breakpoint.break_here, hc]

/-- The usage counter is incremented exactly when the call triggers. -/
theorem break_here_breaks (bp : Breakpoint) (A : List String) (lv : LocalVars)
    (ca f e : Bool) :
    (bp.break_here A lv ca f e).bp.breaks =
      (if shouldTrigger bp f A && quotaOk bp then bp.breaks + 1 else bp.breaks) := by
  cases hc : shouldTrigger bp f A && quotaOk bp <;>
    cases ca <;> simp [Breakpoint.break_here, hc]

/-- break_here never changes the configuration fields of the object. -/
theorem break_here_config (bp : Breakpoint) (A : List String) (lv : LocalVars)
    (ca f e : Bool) :
    (bp.break_here A lv ca f e).bp.tags = bp.tags ∧
    (bp.break_here A lv ca f e).bp.active = bp.active ∧
    (bp.break_here A lv ca f e).bp.max_usage = bp.max_usage ∧
    (bp.break_here A lv ca f e).bp.exit = bp.exit := by
  cases hc : shouldTrigger bp f A && quotaOk bp <;>
    cases ca <;> simp [Breakpoint.break_here, hc]

/-- The quota-expiry warning fires exactly on a triggering call whose
increment makes the counter reach a finite max_usage. -/
theorem break_here_warned (bp : Breakpoint) (A : List String) (lv : LocalVars)
    (ca f e : Bool) :
    (bp.break_here A lv ca f e).warned =
      ((shouldTrigger bp f A && quotaOk bp) &&
        decide (some (bp.breaks + 1) = bp.max_usage)) := by
  cases hc : shouldTrigger bp f A && quotaOk bp <;>
    cases ca <;> simp [Breakpoint.break_here, hc]

/-- The outcome of a call: DependencyMissing exactly when it triggers with the
console unavailable, otherwise ok with the exit decision. -/
theorem break_here_outcome (bp : Breakpoint) (A : List String) (lv : LocalVars)
    (ca f e : Bool) :
    (bp.break_here A lv ca f e).outcome =
      (if (shouldTrigger bp f A && quotaOk bp) && !ca then
        FireOutcome.dependencyMissing
      else FireOutcome.ok (bp.exit || e)) := by
  cases hc : shouldTrigger bp f A && quotaOk bp <;>
    cases ca <;> simp [Breakpoint.break_here, hc]

/-- The log emission depends only on the log directive and the captured
locals, never on the trigger decision. -/
theorem break_here_logged (bp : Breakpoint) (A : List String) (lv : LocalVars)
    (ca f e : Bool) :
    (bp.break_here A lv ca f e).logged = getLog bp.log lv := by
  cases hc : shouldTrigger bp f A && quotaOk bp <;>
    cases ca <;> simp [Breakpoint.break_here, hc]

/-- shouldTrigger reads only the tags and active fields of the object. -/
theorem shouldTrigger_congr (bp bp2 : Breakpoint) (f : Bool) (A : List String)
    (h1 : bp2.tags = bp.tags) (h2 : bp2.active = bp.active) :
    shouldTrigger bp2 f A = shouldTrigger bp f A := by
  simp [shouldTrigger, h1, h2]

/-- A tag of the breakpoint present in the registry makes shouldTrigger true. -/
theorem shouldTrigger_of_mem (bp : Breakpoint) (f : Bool) (A : List String)
    (t : String) (ht : t ∈ bp.tags) (hA : t ∈ A) :
    shouldTrigger bp f A = true := by
  simp only [shouldTrigger, Bool.or_eq_true, List.any_eq_true,
    decide_eq_true_eq]
  have hex : ∃ x ∈ bp.tags, x ∈ A := ⟨t, ht, hA⟩
  tauto

/-- With a finite quota, quotaOk is the strict counter comparison. -/
theorem quotaOk_some (bp : Breakpoint) (m : Nat) (hm : bp.max_usage = some m) :
    quotaOk bp = decide (bp.breaks < m) := by
  simp [quotaOk, hm]

/-- Unfolding lemma for fireSeq on a cons cell. -/
theorem fireSeq_cons (bp : Breakpoint) (c : FireCall) (cs : List FireCall) :
    fireSeq bp (c :: cs) =
      (bp.break_here c.active_breakpoints c.local_vars c.ipython_available
        c.force c.exit_now) ::
      fireSeq (bp.break_here c.active_breakpoints c.local_vars
        c.ipython_available c.force c.exit_now).bp cs := rfl

/-- After one break_here call with a finite quota N, a counter at most N moves
to min (breaks + 1) N provided the trigger condition held. -/
theorem break_here_breaks_min (bp : Breakpoint) (c : FireCall) (N : Nat)
    (hq : bp.max_usage = some N) (hb : bp.breaks ≤ N)
    (hc : shouldTrigger bp c.force c.active_breakpoints = true) :
    (bp.break_here c.active_breakpoints c.local_vars c.ipython_available
      c.force c.exit_now).bp.breaks = min (bp.breaks + 1) N := by
  rw [break_here_breaks, hc, quotaOk_some bp N hq, Bool.true_and]
  simp only [decide_eq_true_eq]
  split <;> omega

/-- Per-index behaviour of a run of qualifying calls against a finite quota N:
starting from a counter at most N, the i-th call triggers iff breaks + i < N,
warns iff the increment reaches N, and leaves the counter at
min (breaks + i + 1) N. -/
theorem fireSeq_spec (calls : List FireCall) (bp : Breakpoint) (N : Nat)
    (hq : bp.max_usage = some N) (hb : bp.breaks ≤ N)
    (hcond : ∀ c ∈ calls, shouldTrigger bp c.force c.active_breakpoints = true) :
    ∀ i : Nat, ∀ hi : i < (fireSeq bp calls).length,
      ((fireSeq bp calls).get ⟨i, hi⟩).triggered = decide (bp.breaks + i < N) ∧
      ((fireSeq bp calls).get ⟨i, hi⟩).warned = decide (bp.breaks + i + 1 = N) ∧
      ((fireSeq bp calls).get ⟨i, hi⟩).bp.breaks = min (bp.breaks + i + 1) N := by
  induction calls generalizing bp with
  | nil => intro i hi; simp [fireSeq] at hi
  | cons c cs ih =>
    intro i hi
    have hcHead : shouldTrigger bp c.force c.active_breakpoints = true :=
      hcond c (by simp)
    have hcfg := break_here_config bp c.active_breakpoints c.local_vars
      c.ipython_available c.force c.exit_now
    have hbreak := break_here_breaks_min bp c N hq hb hcHead
    cases i with
    | zero =>
      have hgoal : (fireSeq bp (c :: cs)).get ⟨0, hi⟩ =
          bp.break_here c.active_breakpoints c.local_vars c.ipython_available
            c.force c.exit_now := rfl
      refine ⟨?_, ?_, ?_⟩
      · rw [hgoal, break_here_triggered, hcHead, quotaOk_some bp N hq,
          Bool.true_and]
        exact decide_eq_decide.mpr (by omega)
      · rw [hgoal, break_here_warned, hcHead, quotaOk_some bp N hq,
          Bool.true_and, hq]
        simp only [Option.some.injEq, ← Bool.decide_and]
        exact decide_eq_decide.mpr (by omega)
      · rw [hgoal, hbreak]
    | succ j =>
      have hi2 : j < (fireSeq (bp.break_here c.active_breakpoints c.local_vars
          c.ipython_available c.force c.exit_now).bp cs).length := by
        rw [fireSeq_cons, List.length_cons] at hi
        omega
      have hgoal : (fireSeq bp (c :: cs)).get ⟨j + 1, hi⟩ =
          (fireSeq (bp.break_here c.active_breakpoints c.local_vars
            c.ipython_available c.force c.exit_now).bp cs).get ⟨j, hi2⟩ := rfl
      have hq2 : (bp.break_here c.active_breakpoints c.local_vars
          c.ipython_available c.force c.exit_now).bp.max_usage = some N := by
        rw [hcfg.2.2.1, hq]
      have hb2 : (bp.break_here c.active_breakpoints c.local_vars
          c.ipython_available c.force c.exit_now).bp.breaks ≤ N := by
        rw [hbreak]; omega
      have hcond2 : ∀ d ∈ cs, shouldTrigger (bp.break_here c.active_breakpoints
          c.local_vars c.ipython_available c.force c.exit_now).bp d.force
          d.active_breakpoints = true := by
        intro d hd
        rw [shouldTrigger_congr bp (bp.break_here c.active_breakpoints
          c.local_vars c.ipython_available c.force c.exit_now).bp d.force
          d.active_breakpoints hcfg.1 hcfg.2.1]
        exact hcond d (List.mem_cons_of_mem _ hd)
      have ih2 := ih (bp.break_here c.active_breakpoints c.local_vars
        c.ipython_available c.force c.exit_now).bp hq2 hb2 hcond2 j hi2
      refine ⟨?_, ?_, ?_⟩
      · rw [hgoal, ih2.1, hbreak]
        exact decide_eq_decide.mpr (by omega)
      · rw [hgoal, ih2.2.1, hbreak]
        exact decide_eq_decide.mpr (by omega)
      · rw [hgoal, ih2.2.2, hbreak]
        omega

/-- Projections of Breakpoint.init: the constructed object carries the given
configuration with a zero counter. -/
theorem init_fst (tags : List String) (atg : ActivateTags) (act : Bool)
    (mu : Option Nat) (ex : Bool) (lg : LogDirective) (st : List String) :
    (Breakpoint.init tags atg act mu ex lg st).1 =
      { breaks := 0, tags := tags, active := act, max_usage := mu,
        exit := ex, log := lg } := rfl

/-- Breakpoint.init never removes a tag from the active registry. -/
theorem init_active_mono (tags : List String) (atg : ActivateTags) (act : Bool)
    (mu : Option Nat) (ex : Bool) (lg : LogDirective) (st : List String)
    (x : String) (hx : x ∈ st) :
    x ∈ (Breakpoint.init tags atg act mu ex lg st).2 := by
  cases atg with
  | bool b =>
    cases b <;>
      simp [Breakpoint.init, ActivateTags.truthy, activate_breakpoint, hx]
  | list l =>
    by_cases h : l.isEmpty <;>
      simp [Breakpoint.init, ActivateTags.truthy, activate_breakpoint, h, hx]

/-- Example object: Breakpoint(max_usage=2) with empty tags, not always
active, no exit, no log, as in the three-forced-calls scenario. -/
def bpTwo : Breakpoint :=
  { breaks := 0, tags := [], active := false, max_usage := some 2,
    exit := false, log := LogDirective.noneD }

/-- Example call: break_here(force=True) with the console available, no tags
active, empty caller frame. -/
def forcedCall : FireCall :=
  { active_breakpoints := [], local_vars := [], ipython_available := true,
    force := true, exit_now := false }

/-- C1: with a finite quota max_usage = N and a counter starting at 0, in any
run of break_here calls that each satisfy the trigger condition, the i-th
call (0-indexed) triggers exactly when i is below N, the counter after it is
min (i+1) N (so exactly the first N calls trigger and increment it), and the
quota-expiry warning is emitted exactly on the call whose increment reaches
N, which is the N-th triggering call. -/
theorem c1_finite_quota_exact (bp : Breakpoint) (N : Nat)
    (calls : List FireCall) (hq : bp.max_usage = some N) (h0 : bp.breaks = 0)
    (hcond : ∀ c ∈ calls, shouldTrigger bp c.force c.active_breakpoints = true)
    (i : Nat) (hi : i < (fireSeq bp calls).length) :
    ((fireSeq bp calls).get ⟨i, hi⟩).triggered = decide (i < N) ∧
    ((fireSeq bp calls).get ⟨i, hi⟩).warned = decide (i + 1 = N) ∧
    ((fireSeq bp calls).get ⟨i, hi⟩).bp.breaks = min (i + 1) N := by
  have h := fireSeq_spec calls bp N hq (by omega) hcond i hi
  rw [h0] at h
  simpa using h

/-- Witness for C1: Breakpoint(max_usage=2) called three times with
force=True - call 1 triggers, call 2 warns, call 3 does not trigger. -/
theorem c1_finite_quota_exact_witness :
    ((fireSeq bpTwo [forcedCall, forcedCall, forcedCall]).get
      ⟨0, by decide⟩).triggered = true ∧
    ((fireSeq bpTwo [forcedCall, forcedCall, forcedCall]).get
      ⟨1, by decide⟩).warned = true ∧
    ((fireSeq bpTwo [forcedCall, forcedCall, forcedCall]).get
      ⟨2, by decide⟩).triggered = false := by
  refine ⟨?_, ?_, ?_⟩
  · have h := c1_finite_quota_exact bpTwo 2 [forcedCall, forcedCall, forcedCall]
      rfl rfl (by decide) 0 (by decide)
    simpa using h.1
  · have h := c1_finite_quota_exact bpTwo 2 [forcedCall, forcedCall, forcedCall]
      rfl rfl (by decide) 1 (by decide)
    simpa using h.2.1
  · have h := c1_finite_quota_exact bpTwo 2 [forcedCall, forcedCall, forcedCall]
      rfl rfl (by decide) 2 (by decide)
    simpa using h.1

/-- C2: evaluation of func_breakpoint.__call__ at the failing input - two
wrappings under the declared name f, starting from the empty module-level
func_breakpoints registry.  The registry is empty after the first wrap (no
entry under f is ever stored: the source tests inner.__name__, which still
reads "inner" at that point, and neither branch writes to func_breakpoints),
it is still empty after the second wrap, and the second wrap hands out a
fresh Breakpoint whose counter restarts at 0 rather than the registered
shared instance the claim describes. -/
theorem c2_registry_never_updated :
    (func_breakpoint_call default_bp_args "f"
      func_breakpoints_init []).registry = [] ∧
    ((func_breakpoint_call default_bp_args "f"
      func_breakpoints_init []).registry.lookup "f") = Option.none ∧
    (func_breakpoint_call default_bp_args "f"
      (func_breakpoint_call default_bp_args "f"
        func_breakpoints_init []).registry
      (func_breakpoint_call default_bp_args "f"
        func_breakpoints_init []).active_breakpoints).registry = [] ∧
    (func_breakpoint_call default_bp_args "f"
      (func_breakpoint_call default_bp_args "f"
        func_breakpoints_init []).registry
      (func_breakpoint_call default_bp_args "f"
        func_breakpoints_init []).active_breakpoints).breakpoint.breaks = 0 :=
  ⟨rfl, rfl, rfl, rfl⟩

/-- C3: a break_here call triggers exactly when the disjunction of the
always-active flag, the force argument and a tag hit in the active registry
holds together with the quota test; in particular force=True triggers
whenever the quota allows, and a breakpoint constructed after
activate_breakpoint(T) whose tags meet T triggers on an unforced call in any
later (extended) registry state while its quota allows. -/
theorem c3_trigger_iff (bp : Breakpoint) (A : List String) (lv : LocalVars)
    (ca f e : Bool) :
    ((bp.break_here A lv ca f e).triggered =
      (shouldTrigger bp f A && quotaOk bp)) ∧
    (quotaOk bp = true →
      (bp.break_here A lv ca true e).triggered = true) ∧
    (∀ (A0 T extra tags : List String) (atg : ActivateTags) (act : Bool)
        (mu : Option Nat) (ex : Bool) (lg : LogDirective) (t : String),
      t ∈ tags → t ∈ T →
      quotaOk (Breakpoint.init tags atg act mu ex lg
        (activate_breakpoint A0 T)).1 = true →
      ((Breakpoint.init tags atg act mu ex lg
          (activate_breakpoint A0 T)).1.break_here
        ((Breakpoint.init tags atg act mu ex lg
          (activate_breakpoint A0 T)).2 ++ extra) lv ca false e).triggered =
        true) := by
  refine ⟨break_here_triggered bp A lv ca f e, ?_, ?_⟩
  · intro hquota
    rw [break_here_triggered, hquota, Bool.and_true]
    simp [shouldTrigger]
  · intro A0 T extra tags atg act mu ex lg t ht hT hquota
    rw [break_here_triggered, hquota, Bool.and_true]
    have htags : t ∈ (Breakpoint.init tags atg act mu ex lg
        (activate_breakpoint A0 T)).1.tags := by
      rw [init_fst]
      exact ht
    have hA : t ∈ (Breakpoint.init tags atg act mu ex lg
        (activate_breakpoint A0 T)).2 ++ extra := by
      apply List.mem_append_left
      apply init_active_mono
      exact List.mem_append_right A0 hT
    exact shouldTrigger_of_mem _ false _ t htags hA

/-- Witness for C3: a force=True call on an armed breakpoint triggers, and a
breakpoint with tag dbg built after activating dbg triggers unforced. -/
theorem c3_trigger_iff_witness :
    (bpTwo.break_here ["dbg"] [] true true false).triggered = true ∧
    ((Breakpoint.init ["dbg"] (ActivateTags.bool true) false (some 10) false
        LogDirective.noneD (activate_breakpoint [] ["dbg"])).1.break_here
      ((Breakpoint.init ["dbg"] (ActivateTags.bool true) false (some 10) false
        LogDirective.noneD (activate_breakpoint [] ["dbg"])).2 ++ []) [] true
      false false).triggered = true := by
  constructor
  · exact (c3_trigger_iff bpTwo ["dbg"] [] true true false).2.1 (by decide)
  · exact (c3_trigger_iff bpTwo [] [] true false false).2.2 [] ["dbg"] []
      ["dbg"] (ActivateTags.bool true) false (some 10) false
      LogDirective.noneD "dbg" (by decide) (by decide) (by decide)

/-- C4: when the trigger and quota conditions hold but IPython cannot be
loaded, break_here ends in the DependencyMissing outcome - the raise
propagates instead of the call silently continuing. -/
theorem c4_dependency_missing (bp : Breakpoint) (A : List String)
    (lv : LocalVars) (f e : Bool) (ht : shouldTrigger bp f A = true)
    (hq : quotaOk bp = true) :
    (bp.break_here A lv false f e).outcome = FireOutcome.dependencyMissing := by
  rw [break_here_outcome, ht, hq]
  simp

/-- Witness for C4: a forced call on an armed breakpoint with the console
unavailable raises DependencyMissing. -/
theorem c4_dependency_missing_witness :
    (bpTwo.break_here [] [] false true false).outcome =
      FireOutcome.dependencyMissing :=
  c4_dependency_missing bpTwo [] [] true false (by decide) (by decide)

/-- C5 counterexample: on a fresh Breakpoint(max_usage=2), a forced call with
the console unavailable raises DependencyMissing, yet the usage counter moves
from 0 to 1 - refuting the claim that the failed call leaves the counter
unchanged. -/
theorem c5_counterexample :
    (bpTwo.break_here [] [] false true false).outcome =
      FireOutcome.dependencyMissing ∧
    bpTwo.breaks = 0 ∧
    (bpTwo.break_here [] [] false true false).bp.breaks = 1 :=
  ⟨rfl, rfl, rfl⟩

/-- C5 (amended): when an otherwise-triggering call fails because the console
is unavailable, the counter has already been incremented - the increment
precedes the suspend attempt, so the failed call consumes one use. -/
theorem c5_increment_before_suspend (bp : Breakpoint) (A : List String)
    (lv : LocalVars) (f e : Bool) (ht : shouldTrigger bp f A = true)
    (hq : quotaOk bp = true) :
    (bp.break_here A lv false f e).outcome = FireOutcome.dependencyMissing ∧
    (bp.break_here A lv false f e).bp.breaks = bp.breaks + 1 := by
  constructor
  · rw [break_here_outcome, ht, hq]
    simp
  · rw [break_here_breaks, ht, hq]
    simp

/-- Witness for the amended C5 at a concrete armed breakpoint. -/
theorem c5_increment_before_suspend_witness :
    (bpTwo.break_here [] [] false true false).outcome =
      FireOutcome.dependencyMissing ∧
    (bpTwo.break_here [] [] false true false).bp.breaks = 1 :=
  c5_increment_before_suspend bpTwo [] [] true false (by decide) (by decide)

/-- C6: with a finite quota m and a counter at most m, any break_here call
leaves the counter at most m - the firing check never pushes it past the
quota. -/
theorem c6_quota_invariant (bp : Breakpoint) (A : List String)
    (lv : LocalVars) (ca f e : Bool) (m : Nat) (hm : bp.max_usage = some m)
    (hb : bp.breaks ≤ m) :
    (bp.break_here A lv ca f e).bp.breaks ≤ m := by
  rw [break_here_breaks]
  by_cases h : (shouldTrigger bp f A && quotaOk bp) = true
  · rw [if_pos h]
    have h2 : quotaOk bp = true := by
      simp only [Bool.and_eq_true] at h
      exact h.2
    rw [quotaOk_some bp m hm] at h2
    have h3 : bp.breaks < m := of_decide_eq_true h2
    omega
  · rw [if_neg h]
    exact hb

/-- Witness for C6: an always-qualifying call on Breakpoint(max_usage=2)
keeps the counter at most 2. -/
theorem c6_quota_invariant_witness :
    (bpTwo.break_here [] [] true true false).bp.breaks ≤ 2 :=
  c6_quota_invariant bpTwo [] [] true true false 2 rfl (by decide)

/-- Example object: an already expired breakpoint (max_usage 0) carrying
exit=True, to show the exit check runs even without a trigger. -/
def bpExitExpired : Breakpoint :=
  { breaks := 0, tags := [], active := false, max_usage := some 0,
    exit := true, log := LogDirective.noneD }

/-- C7: a completed break_here call invokes sys.exit exactly when self.exit
or the exit argument holds: any ok outcome carries that exit decision, a
call with the console available completes with it, and a call that does not
trigger (expired or non-matching) also completes with it - the check is
independent of the trigger decision. -/
theorem c7_exit_check (bp : Breakpoint) (A : List String) (lv : LocalVars)
    (ca f e : Bool) :
    (∀ ex : Bool, (bp.break_here A lv ca f e).outcome = FireOutcome.ok ex →
      ex = (bp.exit || e)) ∧
    (ca = true → (bp.break_here A lv ca f e).outcome =
      FireOutcome.ok (bp.exit || e)) ∧
    ((bp.break_here A lv ca f e).triggered = false →
      (bp.break_here A lv ca f e).outcome = FireOutcome.ok (bp.exit || e)) := by
  refine ⟨?_, ?_, ?_⟩
  · intro ex hex
    rw [break_here_outcome] at hex
    by_cases h : ((shouldTrigger bp f A && quotaOk bp) && !ca) = true
    · rw [if_pos h] at hex
      cases hex
    · rw [if_neg h] at hex
      injection hex with h2
      exact h2.symm
  · intro hca
    rw [break_here_outcome, hca]
    simp
  · intro htr
    rw [break_here_triggered] at htr
    rw [break_here_outcome, htr]
    simp

/-- Witness for C7: an expired breakpoint with exit=True still exits on a
completed unforced call. -/
theorem c7_exit_check_witness :
    (bpExitExpired.break_here [] [] true false false).outcome =
      FireOutcome.ok true := by
  have h := (c7_exit_check bpExitExpired [] [] true false false).2.2 (by decide)
  simpa [bpExitExpired] using h

/-- Example object: an expired breakpoint whose log directive is the literal
string hello, to show logging happens on a non-triggering call. -/
def bpLogStr : Breakpoint :=
  { breaks := 0, tags := [], active := false, max_usage := some 0,
    exit := false, log := LogDirective.strD "hello" }

/-- C8: every break_here call with a set log directive logs at debug level
regardless of the trigger decision: nothing when log is None, the literal
string when it is a string, and the value of the callable applied to the
captured local-variable mapping when it is a function. -/
theorem c8_logging (bp : Breakpoint) (A : List String) (lv : LocalVars)
    (ca f e : Bool) :
    (bp.log = LogDirective.noneD →
      (bp.break_here A lv ca f e).logged = Option.none) ∧
    (∀ s : String, bp.log = LogDirective.strD s →
      (bp.break_here A lv ca f e).logged = some s) ∧
    (∀ g : LocalVars → String, bp.log = LogDirective.fnD g →
      (bp.break_here A lv ca f e).logged = some (g lv)) := by
  refine ⟨?_, ?_, ?_⟩
  · intro h
    rw [break_here_logged, h]
    rfl
  · intro s h
    rw [break_here_logged, h]
    rfl
  · intro g h
    rw [break_here_logged, h]
    rfl

/-- Witness for C8: the expired string-logging breakpoint logs hello on a
call that does not trigger. -/
theorem c8_logging_witness :
    (bpLogStr.break_here [] [] true false false).logged = some "hello" :=
  (c8_logging bpLogStr [] [] true false false).2.1 "hello" rfl

/-- C9: activate_breakpoint appends the given tags to the active registry and
returns the full updated collection: the previous collection survives as the
prefix, the new tags are the suffix (duplicates permitted), and every
previously active tag and every newly given tag is in the result. -/
theorem c9_activate_append (st t : List String) :
    activate_breakpoint st t = st ++ t ∧
    (activate_breakpoint st t).take st.length = st ∧
    (activate_breakpoint st t).drop st.length = t ∧
    (∀ x, x ∈ st → x ∈ activate_breakpoint st t) ∧
    (∀ x, x ∈ t → x ∈ activate_breakpoint st t) := by
  refine ⟨rfl, ?_, ?_, ?_, ?_⟩
  · simp [activate_breakpoint]
  · simp [activate_breakpoint]
  · intro x hx
    simp [activate_breakpoint, hx]
  · intro x hx
    simp [activate_breakpoint, hx]

/-- Witness for C9 on the concrete registries. -/
theorem c9_activate_append_witness :
    activate_breakpoint ["a"] ["b"] = ["a", "b"] ∧
    "a" ∈ activate_breakpoint ["a"] ["b"] ∧
    "b" ∈ activate_breakpoint ["a"] ["b"] := by
  have h := c9_activate_append ["a"] ["b"]
  exact ⟨h.1, h.2.2.2.1 "a" (by decide), h.2.2.2.2 "b" (by decide)⟩

/-- Example object: a breakpoint with max_usage=0 that is always active and
has a matching tag, showing the zero quota blocks every call. -/
def bpZero : Breakpoint :=
  { breaks := 0, tags := ["dbg"], active := true, max_usage := some 0,
    exit := false, log := LogDirective.noneD }

/-- C10: max_usage = 0 is a finite, already exhausted quota - no call ever
triggers or moves the counter, even forced or always-active - while the
distinct value None is the unlimited sentinel that makes the quota test
always pass. -/
theorem c10_zero_quota (bp : Breakpoint) (A : List String) (lv : LocalVars)
    (ca f e : Bool) :
    (bp.max_usage = some 0 →
      (bp.break_here A lv ca f e).triggered = false ∧
      (bp.break_here A lv ca f e).bp.breaks = bp.breaks) ∧
    (bp.max_usage = Option.none → quotaOk bp = true) := by
  constructor
  · intro h0
    have hq : quotaOk bp = false := by
      rw [quotaOk_some bp 0 h0]
      simp
    constructor
    · rw [break_here_triggered, hq]
      simp
    · rw [break_here_breaks, hq]
      simp
  · intro hn
    simp [quotaOk, hn]

/-- Witness for C10: the always-active tagged breakpoint with zero quota does
not trigger on a forced call with its tag active, and its counter stays 0. -/
theorem c10_zero_quota_witness :
    (bpZero.break_here ["dbg"] [] true true false).triggered = false ∧
    (bpZero.break_here ["dbg"] [] true true false).bp.breaks = 0 := by
  have h := (c10_zero_quota bpZero ["dbg"] [] true true false).1 rfl
  exact ⟨h.1, h.2⟩
